import Mathlib

/-!
Shallow embedding of the TileDB query orchestrator
(`tiledb/sm/query/query.cc`) and proofs about its validation routines and
its status state machine.

Modelling conventions:
* `Status` mirrors the C++ `Status` class restricted to the outcomes this
  file produces: `ok` and `queryError msg`.
* Machine integers (`uint64_t`) are modelled as `Nat`; the C++ comparisons
  in the embedded routines never overflow, so no wrap-around is needed.
* Raw pointers are modelled as `Option` of the pointee view; a
  `uint64_t*` buffer is modelled as a total map `Nat → Nat` from element
  index to value (the code itself bounds which indices it reads).
* Type-erased numeric subarray buffers are modelled as `Nat → Int`
  (element index to scalar value); all eight integer paths of the
  dispatch behave identically under this view.
-/

/-- The subset of the C++ `Status` values produced by `query.cc`. -/
inductive Status where
  | ok : Status
  | queryError : String → Status
deriving DecidableEq, Repr

namespace Status

/-- `Status::ok()` test. -/
def isOk : Status → Bool
  | .ok => true
  | .queryError _ => false

end Status

/-! ### `Query::check_var_attr_offsets`

C++ source (`query.cc:132-165`): three pointer arguments; a null check on
all three, then `num_offsets = *buffer_off_size / sizeof(uint64_t)`; zero
offsets succeed; otherwise the first offset must be `< *buffer_val_size`
and each later offset must be strictly above its predecessor and
`< *buffer_val_size`. -/

/-- The `for (uint64_t i = 1; i < num_offsets; i++)` loop of
`check_var_attr_offsets`: `prev` is `prev_offset`, `i` the current index,
`remaining` the number of iterations left (`num_offsets - i`). -/
def offsetsLoop (buf : Nat → Nat) (valSize : Nat) :
    Nat → Nat → Nat → Status
  | _, _, 0 => Status.ok
  | prev, i, remaining + 1 =>
    if buf i ≤ prev then
      Status.queryError
        "Invalid offsets; offsets must be given in strictly ascending order."
    else if buf i ≥ valSize then
      Status.queryError
        ("Invalid offsets; offset " ++ toString (buf i) ++
          " specified for buffer of size " ++ toString valSize)
    else
      offsetsLoop buf valSize (buf i) (i + 1) remaining

/-- `Query::check_var_attr_offsets(buffer_off, buffer_off_size,
buffer_val_size)`.  The offsets buffer is a map from element index to
value; the two size arguments are byte counts. -/
def check_var_attr_offsets (buffer_off : Option (Nat → Nat))
    (buffer_off_size : Option Nat) (buffer_val_size : Option Nat) : Status :=
  match buffer_off, buffer_off_size, buffer_val_size with
  | some buf, some offSize, some valSize =>
    let numOffsets := offSize / 8
    if numOffsets = 0 then Status.ok
    else
      let prev := buf 0
      if prev ≥ valSize then
        Status.queryError
          ("Invalid offsets; offset " ++ toString prev ++
            " specified for buffer of size " ++ toString valSize)
      else
        offsetsLoop buf valSize prev 1 (numOffsets - 1)
  | _, _, _ => Status.queryError "Cannot use null offset buffers."

/-- Characterisation of the validation loop: starting at index `i` with
previous value `prev` and `r` iterations left, it succeeds iff every
visited entry strictly exceeds its predecessor and is below `valSize`. -/
theorem offsetsLoop_eq_ok_iff (buf : Nat → Nat) (valSize : Nat) :
    ∀ r i prev, offsetsLoop buf valSize prev i r = Status.ok ↔
      (∀ k, k < r →
        (if k = 0 then prev else buf (i + k - 1)) < buf (i + k) ∧
          buf (i + k) < valSize) := by
  intro r
  induction r with
  | zero =>
    intro i prev
    simp [offsetsLoop]
  | succ r ih =>
    intro i prev
    by_cases h1 : buf i ≤ prev
    · simp only [offsetsLoop, if_pos h1]
      constructor
      · intro h; exact absurd h (by simp)
      · intro h
        have h0 := h 0 (Nat.succ_pos r)
        simp at h0
        omega
    · by_cases h2 : buf i ≥ valSize
      · simp only [offsetsLoop, if_neg h1, if_pos h2]
        constructor
        · intro h; exact absurd h (by simp)
        · intro h
          have h0 := h 0 (Nat.succ_pos r)
          simp at h0
          omega
      · simp only [offsetsLoop, if_neg h1, if_neg h2]
        rw [ih (i + 1) (buf i)]
        constructor
        · intro h k hk
          match k with
          | 0 => simp; omega
          | 1 =>
            have := h 0
            simp at this ⊢
            rcases r with _ | r
            · omega
            · have h1' := this (Nat.succ_pos r)
              omega
          | k + 2 =>
            have := h (k + 1) (by omega)
            simp at this ⊢
            have e1 : i + 1 + k = i + (k + 1) := by omega
            have e2 : i + 1 + (k + 1) = i + (k + 2) := by omega
            rw [e1, e2] at this
            exact this
        · intro h k hk
          match k with
          | 0 =>
            have := h 1 (by omega)
            simp at this ⊢
            exact this
          | k + 1 =>
            have := h (k + 2) (by omega)
            simp at this ⊢
            have e1 : i + 1 + k = i + (k + 1) := by omega
            have e2 : i + 1 + (k + 1) = i + (k + 2) := by omega
            rw [e1, e2]
            exact this

/-- Rewriting helper: with start index 1, the loop's "previous value" at
step `k` is just `buf k`. -/
theorem prevAt_one (buf : Nat → Nat) (k : Nat) :
    (if k = 0 then buf 0 else buf (1 + k - 1)) = buf k := by
  match k with
  | 0 => simp
  | k + 1 =>
    have e : 1 + (k + 1) - 1 = k + 1 := by omega
    simp [e]

/-- C1: for a variable-length offsets buffer with `n = offSize / 8`
offsets and value-buffer size `valSize`, `Query::check_var_attr_offsets`
succeeds immediately when `n = 0`, and for `n ≥ 1` it succeeds iff the
offsets are strictly ascending and every offset (including the first) is
strictly below `valSize`. -/
theorem check_var_attr_offsets_spec (buf : Nat → Nat) (offSize valSize : Nat) :
    (offSize / 8 = 0 →
      check_var_attr_offsets (some buf) (some offSize) (some valSize) =
        Status.ok) ∧
    (1 ≤ offSize / 8 →
      (check_var_attr_offsets (some buf) (some offSize) (some valSize) =
          Status.ok ↔
        ((∀ i, i + 1 < offSize / 8 → buf i < buf (i + 1)) ∧
          (∀ i, i < offSize / 8 → buf i < valSize)))) := by
  constructor
  · intro h
    simp [check_var_attr_offsets, h]
  · intro hn
    have hne : ¬ (offSize / 8 = 0) := by omega
    by_cases h0 : buf 0 ≥ valSize
    · simp only [check_var_attr_offsets, if_neg hne, if_pos h0]
      constructor
      · intro h; exact absurd h (by simp)
      · rintro ⟨_, hb⟩
        have := hb 0 hn
        omega
    · simp only [check_var_attr_offsets, if_neg hne, if_neg h0]
      rw [offsetsLoop_eq_ok_iff]
      constructor
      · intro h
        constructor
        · intro i hi
          have hh := h i (by omega)
          rw [prevAt_one] at hh
          have e : 1 + i = i + 1 := by omega
          rw [e] at hh
          exact hh.1
        · intro i hi
          match i with
          | 0 => omega
          | i + 1 =>
            have hh := h i (by omega)
            rw [prevAt_one] at hh
            have e : 1 + i = i + 1 := by omega
            rw [e] at hh
            exact hh.2
      · rintro ⟨hasc, hbd⟩ k hk
        rw [prevAt_one]
        have e : 1 + k = k + 1 := by omega
        rw [e]
        exact ⟨hasc k (by omega), hbd (k + 1) (by omega)⟩

/-- The offsets example `[0, 3, 7]` from the spec's testable properties. -/
def exOffsets : Nat → Nat :=
  fun i => if i = 0 then 0 else if i = 1 then 3 else 7

/-- Witness for C1: offsets `[0, 3, 7]` with value-buffer size 10 pass
validation (the offsets-buffer byte size is 24, i.e. 3 offsets). -/
theorem check_var_attr_offsets_spec_witness :
    check_var_attr_offsets (some exOffsets) (some 24) (some 10) =
      Status.ok := by
  refine ((check_var_attr_offsets_spec exOffsets 24 10).2 (by norm_num)).mpr
    ⟨?_, ?_⟩
  · intro i hi
    norm_num at hi
    rcases i with _ | _ | i
    · norm_num [exOffsets]
    · norm_num [exOffsets]
    · omega
  · intro i hi
    norm_num at hi
    rcases i with _ | _ | _ | i
    · norm_num [exOffsets]
    · norm_num [exOffsets]
    · norm_num [exOffsets]
    · omega

/-- C10: if any of the three pointer arguments of
`Query::check_var_attr_offsets` is null, the call returns the
"Cannot use null offset buffers." error, before any other validation
runs (the offsets buffer is never read in that case). -/
theorem check_var_attr_offsets_null_spec (off : Option (Nat → Nat))
    (osz vsz : Option Nat) (h : off = none ∨ osz = none ∨ vsz = none) :
    check_var_attr_offsets off osz vsz =
      Status.queryError "Cannot use null offset buffers." := by
  rcases off with _ | b
  · rcases osz with _ | o <;> rcases vsz with _ | v <;> rfl
  · rcases osz with _ | o
    · rcases vsz with _ | v <;> rfl
    · rcases vsz with _ | v
      · rfl
      · simp at h

/-- Witness for C10: a null offsets buffer alongside non-null sizes is
rejected with the null-buffer error. -/
theorem check_var_attr_offsets_null_spec_witness :
    check_var_attr_offsets none (some 8) (some 10) =
      Status.queryError "Cannot use null offset buffers." :=
  check_var_attr_offsets_null_spec none (some 8) (some 10) (Or.inl rfl)

/-! ### `Query::check_subarray_bounds`

C++ source (`query.cc:271-342`): a null subarray succeeds trivially; a
null schema is an error; otherwise the domain datatype selects a typed
path (8 integer widths, 2 float widths).  String/ANY domain types hit
`assert(false); break;` and then fall through to `return Status::Ok()`,
so the observable behaviour depends on whether assertions are compiled
in (`ndebug = true` models `NDEBUG` builds, where `assert` is a no-op).
The typed path checks, per dimension `i`:
`subarray[2i] < dom[0] || subarray[2i+1] > dom[1]` then
`subarray[2i] > subarray[2i+1]`, failing at the first violation. -/

/-- The `Datatype` enum values that `check_subarray_bounds` switches on. -/
inductive Datatype where
  | int8 | uint8 | int16 | uint16 | int32 | uint32 | int64 | uint64
  | float32 | float64
  | char | stringAscii | stringUtf8 | stringUtf16 | stringUtf32
  | stringUcs2 | stringUcs4 | any
deriving DecidableEq, Repr

/-- The datatypes dispatched to a typed comparison path (the 8 integer
widths and the 2 float widths). -/
def Datatype.isNumeric : Datatype → Bool
  | .int8 | .uint8 | .int16 | .uint16 | .int32 | .uint32 | .int64
  | .uint64 | .float32 | .float64 => true
  | _ => false

/-- The eight integer datatypes of the dispatch. -/
def Datatype.isInteger : Datatype → Bool
  | .int8 | .uint8 | .int16 | .uint16 | .int32 | .uint32 | .int64
  | .uint64 => true
  | _ => false

/-- The two floating-point datatypes of the dispatch. -/
def Datatype.isFloat : Datatype → Bool
  | .float32 | .float64 => true
  | _ => false

/-- An IEEE floating-point scalar as the float paths' comparisons see
it: NaN, or an ordered value modelled as a rational.  NaN is the one
element IEEE comparisons leave unordered (infinities order like any
other value), so the ordered values are collapsed to `ℚ`. -/
inductive FP where
  | nan : FP
  | fin : ℚ → FP
deriving DecidableEq

/-- IEEE `<`: false whenever either operand is NaN. -/
def FP.flt : FP → FP → Bool
  | .fin a, .fin b => decide (a < b)
  | _, _ => false

/-- IEEE `<=`: false whenever either operand is NaN. -/
def FP.fle : FP → FP → Bool
  | .fin a, .fin b => decide (a ≤ b)
  | _, _ => false

/-- The part of `ArraySchema` that `check_subarray_bounds` consults: the
domain datatype and, per dimension, the domain bounds
`(dim_domain[0], dim_domain[1])`.  The per-dimension domain storage is
type-erased in the source (a raw buffer cast per datatype), so it is
carried here under both typed views: `dims` as the integer paths read
it, `fdims` as the `float`/`double` paths read it. -/
structure ArraySchema where
  domType : Datatype
  dims : List (Int × Int)
  fdims : List (FP × FP) := []

/-- The per-dimension loop of the typed
`Query::check_subarray_bounds<T>`: `i` is the current dimension index,
the list holds the remaining dimensions' domain bounds. -/
def checkDims (sub : Nat → Int) : Nat → List (Int × Int) → Status
  | _, [] => Status.ok
  | i, d :: rest =>
    if sub (2 * i) < d.1 ∨ sub (2 * i + 1) > d.2 then
      Status.queryError "Subarray out of bounds"
    else if sub (2 * i) > sub (2 * i + 1) then
      Status.queryError "Subarray lower bound is larger than upper bound"
    else
      checkDims sub (i + 1) rest

/-- Outcome of `Query::check_subarray_bounds`: either a returned
`Status`, or an `assert(false)` firing (debug builds abort there). -/
inductive CheckOutcome where
  | normal : Status → CheckOutcome
  | assertViolation : CheckOutcome
deriving DecidableEq, Repr

/-- `Query::check_subarray_bounds(subarray)` — the type dispatcher,
with the type-erased buffer under its integer view (`Nat → Int` is
exact for the eight integer paths; the float paths, whose IEEE
comparisons this view cannot express, are modelled faithfully by
`check_subarray_bounds_ieee` below).  `ndebug` tells whether assertions
are compiled out (`NDEBUG`): in that case the `assert(false)` for
string/ANY domain types is a no-op and the function falls through to
`return Status::Ok()`. -/
def check_subarray_bounds (ndebug : Bool) (schema : Option ArraySchema)
    (subarray : Option (Nat → Int)) : CheckOutcome :=
  match subarray with
  | none => CheckOutcome.normal Status.ok
  | some sub =>
    match schema with
    | none =>
      CheckOutcome.normal
        (Status.queryError "Cannot check subarray; Array schema not set")
    | some s =>
      if s.domType.isNumeric then CheckOutcome.normal (checkDims sub 0 s.dims)
      else if ndebug then CheckOutcome.normal Status.ok
      else CheckOutcome.assertViolation

/-- The claim's per-dimension condition: lower bound at most upper
bound, and both bounds inside the dimension's domain. -/
def dimValid (sub : Nat → Int) (i : Nat) (d : Int × Int) : Prop :=
  sub (2 * i) ≤ sub (2 * i + 1) ∧
    d.1 ≤ sub (2 * i) ∧ sub (2 * i) ≤ d.2 ∧
    d.1 ≤ sub (2 * i + 1) ∧ sub (2 * i + 1) ≤ d.2

instance (sub : Nat → Int) (i : Nat) (d : Int × Int) :
    Decidable (dimValid sub i d) := by
  unfold dimValid
  infer_instance

/-- The error the code produces for the first violating dimension: the
bounds check runs before the ordering check. -/
def dimFail (sub : Nat → Int) (i : Nat) (d : Int × Int) : Status :=
  if sub (2 * i) < d.1 ∨ sub (2 * i + 1) > d.2 then
    Status.queryError "Subarray out of bounds"
  else
    Status.queryError "Subarray lower bound is larger than upper bound"

/-- A dimension passes the code's two tests iff it satisfies the
claim's condition. -/
theorem dimValid_iff_tests (sub : Nat → Int) (i : Nat) (d : Int × Int) :
    dimValid sub i d ↔
      (¬(sub (2 * i) < d.1 ∨ sub (2 * i + 1) > d.2) ∧
        ¬(sub (2 * i) > sub (2 * i + 1))) := by
  obtain ⟨dlo, dhi⟩ := d
  simp only [dimValid]
  omega

/-- The per-dimension loop succeeds iff every remaining dimension is
valid (indices shifted by the start index `i`). -/
theorem checkDims_eq_ok_iff (sub : Nat → Int) :
    ∀ doms : List (Int × Int), ∀ i,
      (checkDims sub i doms = Status.ok ↔
        ∀ k, k < doms.length → dimValid sub (i + k) (doms.getD k (0, 0))) := by
  intro doms
  induction doms with
  | nil => intro i; simp [checkDims]
  | cons d rest ih =>
    intro i
    rw [show checkDims sub i (d :: rest) =
      (if sub (2 * i) < d.1 ∨ sub (2 * i + 1) > d.2 then
        Status.queryError "Subarray out of bounds"
      else if sub (2 * i) > sub (2 * i + 1) then
        Status.queryError "Subarray lower bound is larger than upper bound"
      else checkDims sub (i + 1) rest) from rfl]
    by_cases h1 : sub (2 * i) < d.1 ∨ sub (2 * i + 1) > d.2
    · rw [if_pos h1]
      constructor
      · intro h; exact absurd h (by simp)
      · intro h
        have h0 := h 0 (Nat.succ_pos _)
        rw [dimValid_iff_tests] at h0
        simp at h0
        omega
    · rw [if_neg h1]
      by_cases h2 : sub (2 * i) > sub (2 * i + 1)
      · rw [if_pos h2]
        constructor
        · intro h; exact absurd h (by simp)
        · intro h
          have h0 := h 0 (Nat.succ_pos _)
          rw [dimValid_iff_tests] at h0
          simp at h0
          omega
      · rw [if_neg h2, ih (i + 1)]
        constructor
        · intro h k hk
          match k with
          | 0 =>
            simp only [Nat.add_zero, List.getD_cons_zero]
            rw [dimValid_iff_tests]
            exact ⟨h1, h2⟩
          | k + 1 =>
            have := h k (by simpa using Nat.lt_of_succ_lt_succ hk)
            have e : i + 1 + k = i + (k + 1) := by omega
            rw [e] at this
            simpa using this
        · intro h k hk
          have := h (k + 1) (by simpa using Nat.succ_lt_succ hk)
          have e : i + 1 + k = i + (k + 1) := by omega
          rw [e]
          simpa using this

/-- The loop short-circuits: if dimension `j` (relative index) is the
first violating one, the result is exactly dimension `j`'s error,
whatever the later dimensions hold. -/
theorem checkDims_firstFail (sub : Nat → Int) :
    ∀ doms : List (Int × Int), ∀ i j, j < doms.length →
      ¬ dimValid sub (i + j) (doms.getD j (0, 0)) →
      (∀ k, k < j → dimValid sub (i + k) (doms.getD k (0, 0))) →
      checkDims sub i doms = dimFail sub (i + j) (doms.getD j (0, 0)) := by
  intro doms
  induction doms with
  | nil => intro i j hj; exact absurd hj (by simp)
  | cons d rest ih =>
    intro i j hj hbad hpre
    rw [show checkDims sub i (d :: rest) =
      (if sub (2 * i) < d.1 ∨ sub (2 * i + 1) > d.2 then
        Status.queryError "Subarray out of bounds"
      else if sub (2 * i) > sub (2 * i + 1) then
        Status.queryError "Subarray lower bound is larger than upper bound"
      else checkDims sub (i + 1) rest) from rfl]
    match j with
    | 0 =>
      simp only [List.getD_cons_zero, Nat.add_zero] at hbad ⊢
      rw [dimValid_iff_tests] at hbad
      unfold dimFail
      by_cases h1 : sub (2 * i) < d.1 ∨ sub (2 * i + 1) > d.2
      · rw [if_pos h1, if_pos h1]
      · rw [if_neg h1, if_neg h1]
        have h2 : sub (2 * i) > sub (2 * i + 1) := by
          by_contra h2
          exact hbad ⟨h1, h2⟩
        rw [if_pos h2]
    | j + 1 =>
      have h0 : dimValid sub i d := by
        have := hpre 0 (Nat.succ_pos _)
        simpa using this
      rw [dimValid_iff_tests] at h0
      rw [if_neg h0.1, if_neg h0.2]
      have step := ih (i + 1) j (by simpa using Nat.lt_of_succ_lt_succ hj)
        (by
          have e : i + 1 + j = i + (j + 1) := by omega
          rw [e]
          simpa using hbad)
        (fun k hk => by
          have := hpre (k + 1) (Nat.succ_lt_succ hk)
          have e : i + 1 + k = i + (k + 1) := by omega
          rw [e]
          simpa using this)
      rw [step]
      have e : i + 1 + j = i + (j + 1) := by omega
      rw [e]
      simp

/-- A 2-dimensional integer schema with domain `[1,4] × [1,4]`, as in the
spec's end-to-end example. -/
def exSchema : ArraySchema :=
  { domType := Datatype.int32, dims := [(1, 4), (1, 4)] }

/-- The whole-domain subarray `[1,4,1,4]` for `exSchema`. -/
def exSubarray : Nat → Int := fun n => if n % 2 = 0 then 1 else 4

/-- C8 counterexample: for a CHAR domain type and a non-null subarray,
a debug build hits `assert(false)` (no error is returned to the caller),
and a release (`NDEBUG`) build falls through the `switch` and reports
success — in neither build does the call reject with an error. -/
theorem check_subarray_bounds_string_cex :
    check_subarray_bounds false
        (some { domType := Datatype.char, dims := [(1, 4)] })
        (some exSubarray) = CheckOutcome.assertViolation ∧
    check_subarray_bounds true
        (some { domType := Datatype.char, dims := [(1, 4)] })
        (some exSubarray) = CheckOutcome.normal Status.ok :=
  ⟨rfl, rfl⟩

/-- C8 amended: for every schema whose domain type is not one of the ten
supported numeric types (i.e. CHAR, the STRING_* family, or ANY),
validation of a non-null subarray executes `assert(false)` — an abort in
debug builds — and in `NDEBUG` builds returns success; it never returns
an error to the caller. -/
theorem check_subarray_bounds_unsupported (ndebug : Bool) (s : ArraySchema)
    (h : s.domType.isNumeric = false) (sub : Nat → Int) :
    check_subarray_bounds ndebug (some s) (some sub) =
      (if ndebug then CheckOutcome.normal Status.ok
       else CheckOutcome.assertViolation) := by
  cases ndebug <;> simp [check_subarray_bounds, h]

/-- Witness for C8's amended statement: an ANY-typed domain in a debug
build reaches the assertion. -/
theorem check_subarray_bounds_unsupported_witness :
    check_subarray_bounds false
        (some { domType := Datatype.any, dims := [(1, 4)] })
        (some exSubarray) = CheckOutcome.assertViolation := by
  have h := check_subarray_bounds_unsupported false
    { domType := Datatype.any, dims := [(1, 4)] } rfl exSubarray
  simpa using h

/-! #### The float dispatch paths under IEEE comparison semantics

`FLOAT32`/`FLOAT64` dispatch to `check_subarray_bounds<float/double>`
(`query.cc:305-309, 326-342`), whose `<` and `>` are IEEE comparisons:
every comparison involving NaN is false.  The `Nat → Int` view above
cannot express that, so the float paths are modelled here over `FP`
scalars, with the type-erased buffer given by both typed views. -/

/-- The per-dimension loop of `check_subarray_bounds<float>` /
`<double>` under IEEE comparisons (`a > b` is `b < a`; NaN always
compares false). -/
def checkDimsF (sub : Nat → FP) : Nat → List (FP × FP) → Status
  | _, [] => Status.ok
  | i, d :: rest =>
    if (sub (2 * i)).flt d.1 || d.2.flt (sub (2 * i + 1)) then
      Status.queryError "Subarray out of bounds"
    else if (sub (2 * i + 1)).flt (sub (2 * i)) then
      Status.queryError "Subarray lower bound is larger than upper bound"
    else
      checkDimsF sub (i + 1) rest

/-- What the float path tests per dimension: neither of the code's two
checks flags a violation. -/
def dimOkF (sub : Nat → FP) (i : Nat) (d : FP × FP) : Prop :=
  ((sub (2 * i)).flt d.1 || d.2.flt (sub (2 * i + 1))) = false ∧
    (sub (2 * i + 1)).flt (sub (2 * i)) = false

/-- The claim's per-dimension condition read with IEEE `≤`: lower bound
at most upper bound and both bounds inside the dimension's domain. -/
def dimValidF (sub : Nat → FP) (i : Nat) (d : FP × FP) : Prop :=
  (sub (2 * i)).fle (sub (2 * i + 1)) = true ∧
    d.1.fle (sub (2 * i)) = true ∧ (sub (2 * i)).fle d.2 = true ∧
    d.1.fle (sub (2 * i + 1)) = true ∧ (sub (2 * i + 1)).fle d.2 = true

/-- The error the float path produces for the first flagged dimension:
the bounds check runs before the ordering check. -/
def dimFailF (sub : Nat → FP) (i : Nat) (d : FP × FP) : Status :=
  if (sub (2 * i)).flt d.1 || d.2.flt (sub (2 * i + 1)) then
    Status.queryError "Subarray out of bounds"
  else
    Status.queryError "Subarray lower bound is larger than upper bound"

/-- `Query::check_subarray_bounds(subarray)` with the float paths
modelled faithfully: the type-erased subarray buffer is given by both
typed views — the integer view the eight integer `static_cast` paths
read and the IEEE view the `float`/`double` paths read — and the
`Datatype` switch selects the view of its path. -/
def check_subarray_bounds_ieee (ndebug : Bool) (schema : Option ArraySchema)
    (subarray : Option ((Nat → Int) × (Nat → FP))) : CheckOutcome :=
  match subarray with
  | none => CheckOutcome.normal Status.ok
  | some sub =>
    match schema with
    | none =>
      CheckOutcome.normal
        (Status.queryError "Cannot check subarray; Array schema not set")
    | some s =>
      if s.domType.isInteger then
        CheckOutcome.normal (checkDims sub.1 0 s.dims)
      else if s.domType.isFloat then
        CheckOutcome.normal (checkDimsF sub.2 0 s.fdims)
      else if ndebug then CheckOutcome.normal Status.ok
      else CheckOutcome.assertViolation

/-- A dimension passes the float path's two tests iff neither test's
condition holds. -/
theorem dimOkF_iff (sub : Nat → FP) (i : Nat) (d : FP × FP) :
    dimOkF sub i d ↔
      (¬(((sub (2 * i)).flt d.1 || d.2.flt (sub (2 * i + 1))) = true) ∧
        ¬((sub (2 * i + 1)).flt (sub (2 * i)) = true)) := by
  unfold dimOkF
  constructor
  · rintro ⟨h1, h2⟩
    exact ⟨by simp [h1], by simp [h2]⟩
  · rintro ⟨h1, h2⟩
    exact ⟨by simpa using h1, by simpa using h2⟩

/-- The float-path loop succeeds iff every remaining dimension passes
both tests (indices shifted by the start index `i`). -/
theorem checkDimsF_eq_ok_iff (sub : Nat → FP) :
    ∀ doms : List (FP × FP), ∀ i,
      (checkDimsF sub i doms = Status.ok ↔
        ∀ k, k < doms.length →
          dimOkF sub (i + k) (doms.getD k (FP.fin 0, FP.fin 0))) := by
  intro doms
  induction doms with
  | nil => intro i; simp [checkDimsF]
  | cons d rest ih =>
    intro i
    rw [show checkDimsF sub i (d :: rest) =
      (if (sub (2 * i)).flt d.1 || d.2.flt (sub (2 * i + 1)) then
        Status.queryError "Subarray out of bounds"
      else if (sub (2 * i + 1)).flt (sub (2 * i)) then
        Status.queryError "Subarray lower bound is larger than upper bound"
      else checkDimsF sub (i + 1) rest) from rfl]
    by_cases h1 : ((sub (2 * i)).flt d.1 || d.2.flt (sub (2 * i + 1))) = true
    · rw [if_pos h1]
      constructor
      · intro h; exact absurd h (by simp)
      · intro h
        have h0 := h 0 (Nat.succ_pos _)
        simp only [Nat.add_zero, List.getD_cons_zero] at h0
        rw [dimOkF_iff] at h0
        exact absurd h1 h0.1
    · rw [if_neg h1]
      by_cases h2 : (sub (2 * i + 1)).flt (sub (2 * i)) = true
      · rw [if_pos h2]
        constructor
        · intro h; exact absurd h (by simp)
        · intro h
          have h0 := h 0 (Nat.succ_pos _)
          simp only [Nat.add_zero, List.getD_cons_zero] at h0
          rw [dimOkF_iff] at h0
          exact absurd h2 h0.2
      · rw [if_neg h2, ih (i + 1)]
        constructor
        · intro h k hk
          match k with
          | 0 =>
            simp only [Nat.add_zero, List.getD_cons_zero]
            rw [dimOkF_iff]
            exact ⟨h1, h2⟩
          | k + 1 =>
            have := h k (by simpa using Nat.lt_of_succ_lt_succ hk)
            have e : i + 1 + k = i + (k + 1) := by omega
            rw [e] at this
            simpa using this
        · intro h k hk
          have := h (k + 1) (by simpa using Nat.succ_lt_succ hk)
          have e : i + 1 + k = i + (k + 1) := by omega
          rw [e]
          simpa using this

/-- The float-path loop short-circuits: if dimension `j` (relative
index) is the first flagged one, the result is exactly dimension `j`'s
error, whatever the later dimensions hold. -/
theorem checkDimsF_firstFail (sub : Nat → FP) :
    ∀ doms : List (FP × FP), ∀ i j, j < doms.length →
      ¬ dimOkF sub (i + j) (doms.getD j (FP.fin 0, FP.fin 0)) →
      (∀ k, k < j → dimOkF sub (i + k) (doms.getD k (FP.fin 0, FP.fin 0))) →
      checkDimsF sub i doms =
        dimFailF sub (i + j) (doms.getD j (FP.fin 0, FP.fin 0)) := by
  intro doms
  induction doms with
  | nil => intro i j hj; exact absurd hj (by simp)
  | cons d rest ih =>
    intro i j hj hbad hpre
    rw [show checkDimsF sub i (d :: rest) =
      (if (sub (2 * i)).flt d.1 || d.2.flt (sub (2 * i + 1)) then
        Status.queryError "Subarray out of bounds"
      else if (sub (2 * i + 1)).flt (sub (2 * i)) then
        Status.queryError "Subarray lower bound is larger than upper bound"
      else checkDimsF sub (i + 1) rest) from rfl]
    match j with
    | 0 =>
      simp only [List.getD_cons_zero, Nat.add_zero] at hbad ⊢
      rw [dimOkF_iff] at hbad
      unfold dimFailF
      by_cases h1 : ((sub (2 * i)).flt d.1 || d.2.flt (sub (2 * i + 1))) = true
      · rw [if_pos h1, if_pos h1]
      · rw [if_neg h1, if_neg h1]
        have h2 : (sub (2 * i + 1)).flt (sub (2 * i)) = true := by
          by_contra h2
          exact hbad ⟨h1, h2⟩
        rw [if_pos h2]
    | j + 1 =>
      have h0 : dimOkF sub i d := by
        have := hpre 0 (Nat.succ_pos _)
        simpa using this
      rw [dimOkF_iff] at h0
      rw [if_neg h0.1, if_neg h0.2]
      have step := ih (i + 1) j (by simpa using Nat.lt_of_succ_lt_succ hj)
        (by
          have e : i + 1 + j = i + (j + 1) := by omega
          rw [e]
          simpa using hbad)
        (fun k hk => by
          have := hpre (k + 1) (Nat.succ_lt_succ hk)
          have e : i + 1 + k = i + (k + 1) := by omega
          rw [e]
          simpa using this)
      rw [step]
      have e : i + 1 + j = i + (j + 1) := by omega
      rw [e]
      simp

/-- On the eight integer domain types the two-view dispatcher coincides
with the integer-view dispatcher above. -/
theorem check_subarray_bounds_ieee_int (ndebug : Bool) (s : ArraySchema)
    (h : s.domType.isInteger = true) (sub : (Nat → Int) × (Nat → FP)) :
    check_subarray_bounds_ieee ndebug (some s) (some sub) =
      check_subarray_bounds ndebug (some s) (some sub.1) := by
  have hn : s.domType.isNumeric = true := by
    cases hd : s.domType <;>
      simp_all [Datatype.isInteger, Datatype.isNumeric]
  simp [check_subarray_bounds_ieee, check_subarray_bounds, h, hn]

/-- A FLOAT64 schema with one dimension whose domain is `[1.0, 4.0]`. -/
def exSchemaF : ArraySchema :=
  { domType := Datatype.float64, dims := [],
    fdims := [(FP.fin 1, FP.fin 4)] }

/-- The float-view subarray `[NaN, 2.0]`. -/
def nanSub : Nat → FP := fun n => if n = 0 then FP.nan else FP.fin 2

/-- C2 counterexample: over the FLOAT64 domain `[1.0, 4.0]` — a
supported numeric domain type — the subarray `[NaN, 2.0]` passes
validation (every IEEE comparison involving NaN is false, so neither
check flags), yet its lower bound is neither `≤` its upper bound nor
inside the domain: validation succeeds while the claimed condition
fails, refuting the claimed iff. -/
theorem check_subarray_bounds_float_nan_cex :
    check_subarray_bounds_ieee true (some exSchemaF)
        (some (fun _ => 0, nanSub)) = CheckOutcome.normal Status.ok ∧
    ¬ dimValidF nanSub 0 (FP.fin 1, FP.fin 4) := by
  constructor
  · rfl
  · intro h
    exact absurd h.1 (by simp [nanSub, FP.fle])

/-- C2 amended: subarray validation succeeds trivially for a null
subarray.  Over the eight integer domain types it succeeds iff every
dimension has its lower bound at most its upper bound with both inside
the dimension's domain, and the first violating dimension determines
the error with later dimensions never examined.  Over FLOAT32/FLOAT64
the comparisons are IEEE, so it succeeds iff no dimension's two checks
flag a violation — a condition that coincides with the claimed one
whenever the dimension's four scalars are ordered (non-NaN) but which
any NaN bound satisfies vacuously; the first flagged dimension likewise
determines the error. -/
theorem check_subarray_bounds_ieee_spec (ndebug : Bool) (s : ArraySchema)
    (sub : (Nat → Int) × (Nat → FP)) :
    (check_subarray_bounds_ieee ndebug (some s) none =
      CheckOutcome.normal Status.ok) ∧
    (s.domType.isInteger = true →
      ((check_subarray_bounds_ieee ndebug (some s) (some sub) =
          CheckOutcome.normal Status.ok ↔
        ∀ k, k < s.dims.length → dimValid sub.1 k (s.dims.getD k (0, 0))) ∧
       (∀ j, j < s.dims.length →
         ¬ dimValid sub.1 j (s.dims.getD j (0, 0)) →
         (∀ k, k < j → dimValid sub.1 k (s.dims.getD k (0, 0))) →
         check_subarray_bounds_ieee ndebug (some s) (some sub) =
           CheckOutcome.normal (dimFail sub.1 j (s.dims.getD j (0, 0)))))) ∧
    (s.domType.isFloat = true →
      ((check_subarray_bounds_ieee ndebug (some s) (some sub) =
          CheckOutcome.normal Status.ok ↔
        ∀ k, k < s.fdims.length →
          dimOkF sub.2 k (s.fdims.getD k (FP.fin 0, FP.fin 0))) ∧
       (∀ j, j < s.fdims.length →
         ¬ dimOkF sub.2 j (s.fdims.getD j (FP.fin 0, FP.fin 0)) →
         (∀ k, k < j →
           dimOkF sub.2 k (s.fdims.getD k (FP.fin 0, FP.fin 0))) →
         check_subarray_bounds_ieee ndebug (some s) (some sub) =
           CheckOutcome.normal
             (dimFailF sub.2 j (s.fdims.getD j (FP.fin 0, FP.fin 0)))))) ∧
    (∀ i : Nat, ∀ d : FP × FP, ∀ la lb dl dh : ℚ,
      sub.2 (2 * i) = FP.fin la → sub.2 (2 * i + 1) = FP.fin lb →
      d.1 = FP.fin dl → d.2 = FP.fin dh →
      (dimOkF sub.2 i d ↔ dimValidF sub.2 i d)) := by
  refine ⟨rfl, ?_, ?_, ?_⟩
  · intro hint
    have hred : check_subarray_bounds_ieee ndebug (some s) (some sub) =
        CheckOutcome.normal (checkDims sub.1 0 s.dims) := by
      simp [check_subarray_bounds_ieee, hint]
    constructor
    · rw [hred]
      simp only [CheckOutcome.normal.injEq]
      rw [checkDims_eq_ok_iff]
      simp
    · intro j hj hbad hpre
      rw [hred]
      have step := checkDims_firstFail sub.1 s.dims 0 j hj
        (by simpa using hbad) (fun k hk => by simpa using hpre k hk)
      rw [step]
      simp
  · intro hf
    have hni : s.domType.isInteger = false := by
      cases hd : s.domType <;>
        simp_all [Datatype.isInteger, Datatype.isFloat]
    have hred : check_subarray_bounds_ieee ndebug (some s) (some sub) =
        CheckOutcome.normal (checkDimsF sub.2 0 s.fdims) := by
      simp [check_subarray_bounds_ieee, hni, hf]
    constructor
    · rw [hred]
      simp only [CheckOutcome.normal.injEq]
      rw [checkDimsF_eq_ok_iff]
      simp
    · intro j hj hbad hpre
      rw [hred]
      have step := checkDimsF_firstFail sub.2 s.fdims 0 j hj
        (by simpa using hbad) (fun k hk => by simpa using hpre k hk)
      rw [step]
      simp
  · intro i d la lb dl dh h1 h2 h3 h4
    simp only [dimOkF, dimValidF, h1, h2, h3, h4, FP.flt, FP.fle,
      Bool.or_eq_false_iff, decide_eq_false_iff_not, decide_eq_true_eq,
      not_lt]
    constructor
    · rintro ⟨⟨ha, hb⟩, hc⟩
      refine ⟨by linarith, by linarith, by linarith, by linarith,
        by linarith⟩
    · rintro ⟨ha, hb, hc, hd2, he⟩
      exact ⟨⟨by linarith, by linarith⟩, by linarith⟩

/-- The whole-domain float subarray `[1.0, 4.0]` for `exSchemaF`. -/
def exSubF : Nat → FP := fun n => if n % 2 = 0 then FP.fin 1 else FP.fin 4

/-- Witness for C2's amended statement: the NaN-free whole-domain
subarray `[1.0, 4.0]` over the FLOAT64 domain `[1.0, 4.0]` passes
validation. -/
theorem check_subarray_bounds_ieee_spec_witness :
    check_subarray_bounds_ieee true (some exSchemaF)
        (some (fun _ => 0, exSubF)) = CheckOutcome.normal Status.ok := by
  refine (((check_subarray_bounds_ieee_spec true exSchemaF
    (fun _ => 0, exSubF)).2.2.1 rfl).1).mpr ?_
  intro k hk
  have hk1 : k < 1 := by simpa [exSchemaF] using hk
  interval_cases k
  exact ⟨rfl, rfl⟩

/-! ### The Query state machine

`query.cc` delegates to a `Reader` or a `Writer` sub-object selected by
the immutable query type.  `reader.cc`/`writer.cc` are not among the
sources, so their behaviour at the call sites is abstracted: each
delegate call is an opaque transformer of that sub-object's abstract
state together with a returned `Status`, and `reader_.incomplete()` is an
opaque flag, all packaged in an environment record. -/

/-- `QueryType` enum. -/
inductive QueryType where
  | READ | WRITE
deriving DecidableEq, Repr

/-- `QueryStatus` enum. -/
inductive QueryStatus where
  | UNINITIALIZED | INPROGRESS | COMPLETED | INCOMPLETE | FAILED
deriving DecidableEq, Repr

/-- Observable delegate invocations and callback firings during one
Query method call.  `callbackFired` records the value of `status_` at
the moment the callback runs. -/
inductive Event where
  | readerInit | writerInit
  | readerRead | writerWrite
  | writerFinalize
  | readerSetSubarray | writerSetSubarray
  | callbackFired (statusAtCall : QueryStatus)
deriving DecidableEq, Repr

/-- Whether an event is an invocation of a Writer operation. -/
def Event.isWriterOp : Event → Bool
  | .writerInit | .writerWrite | .writerFinalize | .writerSetSubarray => true
  | _ => false

/-- Whether an event is an invocation of a Reader operation. -/
def Event.isReaderOp : Event → Bool
  | .readerInit | .readerRead | .readerSetSubarray => true
  | _ => false

/-- Modelled from the spec: the Reader and Writer sub-objects
(`reader.cc`, `writer.cc` are not among the sources).  Each delegate
call the Query makes is modelled by the `Status` it returns plus an
opaque update of the sub-object's abstract iteration state, and
`reader_.incomplete()` by an opaque flag (§4.3: true exactly when the
last read stopped on buffer exhaustion). -/
structure Env where
  readerInitSt : Status
  writerInitSt : Status
  readSt : Status
  writeSt : Status
  writerFinalizeSt : Status
  readerIncomplete : Bool
  readerInitF : Nat → Nat
  writerInitF : Nat → Nat
  readF : Nat → Nat
  writeF : Nat → Nat
  writerFinalizeF : Nat → Nat

/-- The Query session object: immutable type, status, whether a
callback is registered (`callback_ != nullptr`), the borrowed schema,
and the two sub-objects' states — an abstract iteration state and the
subarray each stores via its `set_subarray`. -/
structure QueryState where
  qtype : QueryType
  status : QueryStatus
  hasCallback : Bool
  schema : Option ArraySchema
  readerState : Nat
  writerState : Nat
  readerSubarray : Option (Nat → Int)
  writerSubarray : Option (Nat → Int)

namespace Query

/-- `Query::init` (`query.cc:100-113`): delegates to
`reader_.init()`/`writer_.init()` only when `UNINITIALIZED`; a delegate
failure is returned with `status_` untouched (`RETURN_NOT_OK`);
otherwise `status_` becomes `INPROGRESS`. -/
def init (env : Env) (q : QueryState) : Status × QueryState × List Event :=
  if q.status = QueryStatus.UNINITIALIZED then
    if q.qtype = QueryType.READ then
      if env.readerInitSt.isOk then
        (Status.ok,
          { q with status := QueryStatus.INPROGRESS,
                   readerState := env.readerInitF q.readerState },
          [Event.readerInit])
      else
        (env.readerInitSt,
          { q with readerState := env.readerInitF q.readerState },
          [Event.readerInit])
    else
      if env.writerInitSt.isOk then
        (Status.ok,
          { q with status := QueryStatus.INPROGRESS,
                   writerState := env.writerInitF q.writerState },
          [Event.writerInit])
      else
        (env.writerInitSt,
          { q with writerState := env.writerInitF q.writerState },
          [Event.writerInit])
  else
    (Status.ok, { q with status := QueryStatus.INPROGRESS }, [])

/-- `Query::process` (`query.cc:167-199`): fails fast when
`UNINITIALIZED`; otherwise sets `INPROGRESS`, delegates to
`reader_.read()`/`writer_.write()`, on failure sets `FAILED` and returns
the delegate's status; on success a WRITE is complete, a READ is
complete iff `!reader_.incomplete()`; on completion the callback (if
registered) fires — while `status_` is still `INPROGRESS` — and then
`status_` becomes `COMPLETED`; otherwise `INCOMPLETE`. -/
def process (env : Env) (q : QueryState) : Status × QueryState × List Event :=
  if q.status = QueryStatus.UNINITIALIZED then
    (Status.queryError "Cannot process query; Query is not initialized", q, [])
  else
    let q1 := { q with status := QueryStatus.INPROGRESS }
    let st := if q.qtype = QueryType.READ then env.readSt else env.writeSt
    let q2 :=
      if q.qtype = QueryType.READ then
        { q1 with readerState := env.readF q1.readerState }
      else
        { q1 with writerState := env.writeF q1.writerState }
    let ev1 :=
      if q.qtype = QueryType.READ then [Event.readerRead]
      else [Event.writerWrite]
    if st.isOk then
      let completed :=
        if q.qtype = QueryType.WRITE then true else !env.readerIncomplete
      if completed then
        (Status.ok, { q2 with status := QueryStatus.COMPLETED },
          ev1 ++ (if q2.hasCallback then [Event.callbackFired q2.status]
                  else []))
      else
        (Status.ok, { q2 with status := QueryStatus.INCOMPLETE }, ev1)
    else
      (st, { q2 with status := QueryStatus.FAILED }, ev1)

/-- `Query::finalize` (`query.cc:72-79`): a no-op success when
`UNINITIALIZED`; otherwise calls `writer_.finalize()` — regardless of
the query type — and on its success sets `COMPLETED`. -/
def finalize (env : Env) (q : QueryState) : Status × QueryState × List Event :=
  if q.status = QueryStatus.UNINITIALIZED then
    (Status.ok, q, [])
  else
    let q1 := { q with writerState := env.writerFinalizeF q.writerState }
    if env.writerFinalizeSt.isOk then
      (Status.ok, { q1 with status := QueryStatus.COMPLETED },
        [Event.writerFinalize])
    else
      (env.writerFinalizeSt, q1, [Event.writerFinalize])

/-- `Query::cancel` (`query.cc:127-130`): unconditionally sets `FAILED`. -/
def cancel (q : QueryState) : Status × QueryState × List Event :=
  (Status.ok, { q with status := QueryStatus.FAILED }, [])

/-- Outcome of a method that can hit `assert(false)` on the way. -/
inductive MethodOutcome where
  | result : Status × QueryState × List Event → MethodOutcome
  | aborted : MethodOutcome

/-- `Query::set_subarray` (`query.cc:246-257`): validates via
`check_subarray_bounds` first (`RETURN_NOT_OK` on failure, leaving the
Query untouched); then delegates storage to
`writer_.set_subarray`/`reader_.set_subarray` and resets `status_` to
`UNINITIALIZED`.  Modelled from the spec: the delegate `set_subarray`
(not among the sources) stores the subarray and succeeds — the spec
gives it no failure mode. -/
def set_subarray (ndebug : Bool) (sub : Option (Nat → Int))
    (q : QueryState) : MethodOutcome :=
  match check_subarray_bounds ndebug q.schema sub with
  | CheckOutcome.assertViolation => MethodOutcome.aborted
  | CheckOutcome.normal st =>
    if st.isOk then
      if q.qtype = QueryType.WRITE then
        MethodOutcome.result (Status.ok,
          { q with writerSubarray := sub,
                   status := QueryStatus.UNINITIALIZED },
          [Event.writerSetSubarray])
      else
        MethodOutcome.result (Status.ok,
          { q with readerSubarray := sub,
                   status := QueryStatus.UNINITIALIZED },
          [Event.readerSetSubarray])
    else
      MethodOutcome.result (st, q, [])

end Query

/-- An environment in which every delegate call succeeds, the reader is
never incomplete, and delegate state updates are the identity. -/
def exEnv : Env :=
  { readerInitSt := Status.ok
    writerInitSt := Status.ok
    readSt := Status.ok
    writeSt := Status.ok
    writerFinalizeSt := Status.ok
    readerIncomplete := false
    readerInitF := id
    writerInitF := id
    readF := id
    writeF := id
    writerFinalizeF := id }

/-- A query of the given type and status, with no callback, no schema
and fresh sub-object states. -/
def exQuery (t : QueryType) (s : QueryStatus) : QueryState :=
  { qtype := t
    status := s
    hasCallback := false
    schema := none
    readerState := 0
    writerState := 0
    readerSubarray := none
    writerSubarray := none }

/-- C3: `Query::process` on an UNINITIALIZED query fails with the state
error and invokes no delegate; otherwise it delegates by type, returns a
delegate failure unchanged with status FAILED, and on delegate success a
WRITE ends COMPLETED while a READ ends COMPLETED exactly when the reader
is not incomplete, INCOMPLETE otherwise. -/
theorem process_spec (env : Env) (q : QueryState) :
    (q.status = QueryStatus.UNINITIALIZED →
      Query.process env q =
        (Status.queryError "Cannot process query; Query is not initialized",
          q, [])) ∧
    (q.status ≠ QueryStatus.UNINITIALIZED →
      ((q.qtype = QueryType.READ → env.readSt.isOk = false →
          Query.process env q =
            (env.readSt,
              { q with status := QueryStatus.FAILED,
                       readerState := env.readF q.readerState },
              [Event.readerRead])) ∧
       (q.qtype = QueryType.WRITE → env.writeSt.isOk = false →
          Query.process env q =
            (env.writeSt,
              { q with status := QueryStatus.FAILED,
                       writerState := env.writeF q.writerState },
              [Event.writerWrite])) ∧
       (q.qtype = QueryType.WRITE → env.writeSt.isOk = true →
          (Query.process env q).1 = Status.ok ∧
          (Query.process env q).2.1.status = QueryStatus.COMPLETED) ∧
       (q.qtype = QueryType.READ → env.readSt.isOk = true →
          (Query.process env q).1 = Status.ok ∧
          (Query.process env q).2.1.status =
            (if env.readerIncomplete then QueryStatus.INCOMPLETE
             else QueryStatus.COMPLETED)))) := by
  constructor
  · intro h
    simp [Query.process, h]
  · intro h
    refine ⟨?_, ?_, ?_, ?_⟩
    · intro ht hst
      simp [Query.process, h, ht, hst]
    · intro ht hst
      simp [Query.process, h, ht, hst]
    · intro ht hst
      simp [Query.process, h, ht, hst]
    · intro ht hst
      cases hinc : env.readerIncomplete <;>
        simp [Query.process, h, ht, hst, hinc]

/-- Witness for C3: a WRITE query in INPROGRESS whose write succeeds
ends with status COMPLETED. -/
theorem process_spec_witness :
    (Query.process exEnv (exQuery QueryType.WRITE QueryStatus.INPROGRESS)).1 =
        Status.ok ∧
      (Query.process exEnv
          (exQuery QueryType.WRITE QueryStatus.INPROGRESS)).2.1.status =
        QueryStatus.COMPLETED :=
  ((process_spec exEnv (exQuery QueryType.WRITE QueryStatus.INPROGRESS)).2
    (by decide)).2.2.1 rfl rfl

/-- C5 counterexample: on a Query whose status is FAILED, `process()`
does not fail — it invokes the reader and transitions the query out of
FAILED all the way to COMPLETED. -/
theorem process_failed_cex :
    Query.process exEnv (exQuery QueryType.READ QueryStatus.FAILED) =
      (Status.ok,
        { exQuery QueryType.READ QueryStatus.FAILED with
            status := QueryStatus.COMPLETED },
        [Event.readerRead]) := rfl

/-- C5 amended: FAILED is not terminal — `process()` treats a FAILED
query exactly like a resumable (INCOMPLETE) one: it transitions to
INPROGRESS, invokes the delegate, and ends by the normal completion
rules; only UNINITIALIZED makes `process()` fail fast. -/
theorem process_failed_not_terminal (env : Env) (q : QueryState)
    (h : q.status = QueryStatus.FAILED) :
    Query.process env q =
      Query.process env { q with status := QueryStatus.INCOMPLETE } := by
  obtain ⟨t, s0, cb, sc, rs, ws, rsub, wsub⟩ := q
  simp only at h
  subst h
  rfl

/-- Witness for C5's amended statement: `process()` on a FAILED query
equals `process()` on the same query in INCOMPLETE status. -/
theorem process_failed_not_terminal_witness :
    Query.process exEnv (exQuery QueryType.READ QueryStatus.FAILED) =
      Query.process exEnv
        { exQuery QueryType.READ QueryStatus.FAILED with
            status := QueryStatus.INCOMPLETE } :=
  process_failed_not_terminal exEnv (exQuery QueryType.READ QueryStatus.FAILED)
    rfl

/-- A WRITE query in INPROGRESS with a registered callback. -/
def exQueryCb : QueryState :=
  { exQuery QueryType.WRITE QueryStatus.INPROGRESS with hasCallback := true }

/-- C6 counterexample: on a completing `process()` call the callback
fires while `status_` still reads INPROGRESS — the transition to
COMPLETED happens only after the callback returns, so at the moment the
callback runs, `Query::status()` does not report COMPLETED. -/
theorem callback_before_completed_cex :
    Query.process exEnv exQueryCb =
      (Status.ok, { exQueryCb with status := QueryStatus.COMPLETED },
        [Event.writerWrite, Event.callbackFired QueryStatus.INPROGRESS]) :=
  rfl

/-- C6 amended: whenever a `process()` call completes a query with a
callback registered, the callback fires synchronously exactly once,
after the delegate call and strictly before `process()` returns, but
BEFORE the status transition to COMPLETED: at the moment the callback
runs, `status()` reports INPROGRESS; the status becomes COMPLETED after
the callback returns. -/
theorem callback_fires_before_completed (env : Env) (q : QueryState)
    (h : q.status ≠ QueryStatus.UNINITIALIZED)
    (hcb : q.hasCallback = true)
    (hok : (if q.qtype = QueryType.READ then env.readSt
            else env.writeSt).isOk = true)
    (hcomp : q.qtype = QueryType.WRITE ∨ env.readerIncomplete = false) :
    (Query.process env q).2.1.status = QueryStatus.COMPLETED ∧
    (Query.process env q).2.2 =
      (if q.qtype = QueryType.READ then [Event.readerRead]
       else [Event.writerWrite]) ++
        [Event.callbackFired QueryStatus.INPROGRESS] := by
  cases hq : q.qtype with
  | READ =>
    rw [hq] at hok
    simp only [reduceIte] at hok
    have hinc : env.readerIncomplete = false := by
      rcases hcomp with h1 | h1
      · rw [hq] at h1; exact absurd h1 (by decide)
      · exact h1
    constructor <;> simp [Query.process, h, hq, hinc, hcb, hok]
  | WRITE =>
    rw [hq] at hok
    rw [if_neg (by decide : ¬ (QueryType.WRITE = QueryType.READ))] at hok
    constructor <;> simp [Query.process, h, hq, hcb, hok]

/-- Witness for C6's amended statement: a completing READ with a
callback produces the trace `[readerRead, callbackFired INPROGRESS]`
and ends COMPLETED. -/
theorem callback_fires_before_completed_witness :
    (Query.process exEnv
        { exQuery QueryType.READ QueryStatus.INPROGRESS with
            hasCallback := true }).2.1.status = QueryStatus.COMPLETED ∧
    (Query.process exEnv
        { exQuery QueryType.READ QueryStatus.INPROGRESS with
            hasCallback := true }).2.2 =
      (if (exQuery QueryType.READ QueryStatus.INPROGRESS).qtype =
          QueryType.READ then [Event.readerRead]
       else [Event.writerWrite]) ++
        [Event.callbackFired QueryStatus.INPROGRESS] :=
  callback_fires_before_completed exEnv
    { exQuery QueryType.READ QueryStatus.INPROGRESS with hasCallback := true }
    (by decide) rfl rfl (Or.inr rfl)

/-- C4: when subarray validation fails, `Query::set_subarray` returns
the validation error and leaves the whole query state — in particular
the stored subarrays and the status — unchanged; when validation
succeeds, the subarray is stored in the active sub-object and the status
is reset to UNINITIALIZED. -/
theorem set_subarray_spec (ndebug : Bool) (sub : Option (Nat → Int))
    (q : QueryState) (st : Status)
    (hchk : check_subarray_bounds ndebug q.schema sub =
      CheckOutcome.normal st) :
    (st.isOk = false →
      Query.set_subarray ndebug sub q = Query.MethodOutcome.result (st, q, [])) ∧
    (st.isOk = true →
      Query.set_subarray ndebug sub q =
        (if q.qtype = QueryType.WRITE then
          Query.MethodOutcome.result (Status.ok,
            { q with writerSubarray := sub,
                     status := QueryStatus.UNINITIALIZED },
            [Event.writerSetSubarray])
         else
          Query.MethodOutcome.result (Status.ok,
            { q with readerSubarray := sub,
                     status := QueryStatus.UNINITIALIZED },
            [Event.readerSetSubarray]))) := by
  unfold Query.set_subarray
  rw [hchk]
  constructor
  · intro hbad
    simp [hbad]
  · intro hgood
    by_cases ht : q.qtype = QueryType.WRITE <;> simp [hgood, ht]

/-- A READ query in INPROGRESS over the `[1,4] × [1,4]` int32 schema. -/
def exQueryS : QueryState :=
  { exQuery QueryType.READ QueryStatus.INPROGRESS with schema := some exSchema }

/-- An inverted subarray `[5,4,...]` for `exSchema`: dimension 0 has its
lower bound above its upper bound. -/
def exBadSub : Nat → Int := fun n => if n = 0 then 5 else 4

/-- Witness for C4: the inverted subarray is rejected and the query
state — status INPROGRESS and no stored subarray — is untouched. -/
theorem set_subarray_spec_witness :
    Query.set_subarray true (some exBadSub) exQueryS =
      Query.MethodOutcome.result
        (Status.queryError "Subarray lower bound is larger than upper bound",
          exQueryS, []) :=
  (set_subarray_spec true (some exBadSub) exQueryS
    (Status.queryError "Subarray lower bound is larger than upper bound")
    (by decide)).1 rfl

/-- C9: `Query::init` delegates to the sub-object only when the status
is UNINITIALIZED — on any later call it just re-affirms INPROGRESS and
leaves everything else (in particular the Reader/Writer iteration state)
unchanged, so a second `init()` without an intervening `set_subarray` is
a no-op on the delegate; every `init()` whose delegate init succeeds
returns with status INPROGRESS, and a repeated `init()` after any
successful one returns the state unchanged with no delegate calls. -/
theorem init_spec (env : Env) (q : QueryState) :
    (q.status ≠ QueryStatus.UNINITIALIZED →
      Query.init env q =
        (Status.ok, { q with status := QueryStatus.INPROGRESS }, [])) ∧
    (q.status = QueryStatus.UNINITIALIZED → q.qtype = QueryType.READ →
      env.readerInitSt = Status.ok →
      Query.init env q =
        (Status.ok,
          { q with status := QueryStatus.INPROGRESS,
                   readerState := env.readerInitF q.readerState },
          [Event.readerInit])) ∧
    (q.status = QueryStatus.UNINITIALIZED → q.qtype = QueryType.WRITE →
      env.writerInitSt = Status.ok →
      Query.init env q =
        (Status.ok,
          { q with status := QueryStatus.INPROGRESS,
                   writerState := env.writerInitF q.writerState },
          [Event.writerInit])) ∧
    (∀ st1 q1 ev1, Query.init env q = (st1, q1, ev1) → st1 = Status.ok →
      Query.init env q1 = (Status.ok, q1, [])) := by
  refine ⟨?_, ?_, ?_, ?_⟩
  · intro h
    simp [Query.init, h]
  · intro h ht hst
    simp [Query.init, h, ht, hst, Status.isOk]
  · intro h ht hst
    simp [Query.init, h, ht, hst, Status.isOk]
  · intro st1 q1 ev1 hrun hok
    have hq1 : q1.status = QueryStatus.INPROGRESS := by
      unfold Query.init at hrun
      by_cases h : q.status = QueryStatus.UNINITIALIZED
      · rw [if_pos h] at hrun
        by_cases ht : q.qtype = QueryType.READ
        · rw [if_pos ht] at hrun
          by_cases hi : env.readerInitSt.isOk
          · rw [if_pos hi] at hrun
            cases hrun
            rfl
          · rw [if_neg hi] at hrun
            cases hrun
            rw [hok] at hi
            simp [Status.isOk] at hi
        · rw [if_neg ht] at hrun
          by_cases hi : env.writerInitSt.isOk
          · rw [if_pos hi] at hrun
            cases hrun
            rfl
          · rw [if_neg hi] at hrun
            cases hrun
            rw [hok] at hi
            simp [Status.isOk] at hi
      · rw [if_neg h] at hrun
        cases hrun
        rfl
    have heq : { q1 with status := QueryStatus.INPROGRESS } = q1 := by
      obtain ⟨t, s0, cb, sc, rs, ws, rsub, wsub⟩ := q1
      simp only at hq1
      rw [hq1]
    rw [Query.init, if_neg (by rw [hq1]; decide), heq]

/-- Witness for C9: a second `init()` on an already-INPROGRESS READ
query re-affirms INPROGRESS, makes no delegate call and changes nothing
else. -/
theorem init_spec_witness :
    Query.init exEnv (exQuery QueryType.READ QueryStatus.INPROGRESS) =
      (Status.ok,
        { exQuery QueryType.READ QueryStatus.INPROGRESS with
            status := QueryStatus.INPROGRESS }, []) :=
  (init_spec exEnv (exQuery QueryType.READ QueryStatus.INPROGRESS)).1
    (by decide)

/-- C7 counterexample: `Query::finalize` on a READ-type query (here in
INPROGRESS) invokes `writer_.finalize()` — a Writer operation — so a
READ query does not leave the Writer untouched across its lifetime. -/
theorem finalize_read_invokes_writer_cex :
    Query.finalize exEnv (exQuery QueryType.READ QueryStatus.INPROGRESS) =
      (Status.ok,
        { exQuery QueryType.READ QueryStatus.INPROGRESS with
            status := QueryStatus.COMPLETED },
        [Event.writerFinalize]) := rfl

/-- C7 amended: a WRITE-type query never invokes a Reader operation and
leaves the reader sub-object's state untouched in every method; a
READ-type query never invokes a Writer operation in `init`, `process`,
`cancel` or `set_subarray` — but `finalize` calls `writer_.finalize()`
regardless of the query type whenever the status is not UNINITIALIZED. -/
theorem delegation_matches_type (env : Env) (ndebug : Bool)
    (sub : Option (Nat → Int)) (q : QueryState) :
    (q.qtype = QueryType.WRITE →
      ((∀ e ∈ (Query.init env q).2.2, e.isReaderOp = false) ∧
       (∀ e ∈ (Query.process env q).2.2, e.isReaderOp = false) ∧
       (∀ e ∈ (Query.finalize env q).2.2, e.isReaderOp = false) ∧
       (∀ e ∈ (Query.cancel q).2.2, e.isReaderOp = false) ∧
       (∀ r, Query.set_subarray ndebug sub q = Query.MethodOutcome.result r →
         ∀ e ∈ r.2.2, e.isReaderOp = false) ∧
       (Query.init env q).2.1.readerState = q.readerState ∧
       (Query.process env q).2.1.readerState = q.readerState ∧
       (Query.finalize env q).2.1.readerState = q.readerState ∧
       (∀ r, Query.set_subarray ndebug sub q = Query.MethodOutcome.result r →
         r.2.1.readerSubarray = q.readerSubarray))) ∧
    (q.qtype = QueryType.READ →
      ((∀ e ∈ (Query.init env q).2.2, e.isWriterOp = false) ∧
       (∀ e ∈ (Query.process env q).2.2, e.isWriterOp = false) ∧
       (∀ e ∈ (Query.cancel q).2.2, e.isWriterOp = false) ∧
       (∀ r, Query.set_subarray ndebug sub q = Query.MethodOutcome.result r →
         ∀ e ∈ r.2.2, e.isWriterOp = false) ∧
       (Query.init env q).2.1.writerState = q.writerState ∧
       (Query.process env q).2.1.writerState = q.writerState ∧
       (q.status ≠ QueryStatus.UNINITIALIZED →
         (Query.finalize env q).2.2 = [Event.writerFinalize]))) := by
  constructor
  · intro ht
    refine ⟨?_, ?_, ?_, ?_, ?_, ?_, ?_, ?_, ?_⟩
    · intro e he
      simp only [Query.init] at he
      split_ifs at he <;> simp_all [Event.isReaderOp]
    · intro e he
      simp only [Query.process] at he
      split_ifs at he <;> simp_all [Event.isReaderOp]
      rcases he with he | he <;> simp_all [Event.isReaderOp]
    · intro e he
      simp only [Query.finalize] at he
      split_ifs at he <;> simp_all [Event.isReaderOp]
    · intro e he
      simp only [Query.cancel] at he
      simp_all
    · intro r hr e he
      rcases hco : check_subarray_bounds ndebug q.schema sub with st | _
      · simp only [Query.set_subarray, hco] at hr
        by_cases hst : st.isOk = true
        · rw [if_pos hst, if_pos ht] at hr
          cases hr
          simp_all [Event.isReaderOp]
        · rw [if_neg hst] at hr
          cases hr
          simp_all
      · simp [Query.set_subarray, hco] at hr
    · simp only [Query.init]
      split_ifs <;> simp_all
    · simp only [Query.process]
      split_ifs <;> simp_all
    · simp only [Query.finalize]
      split_ifs <;> simp_all
    · intro r hr
      rcases hco : check_subarray_bounds ndebug q.schema sub with st | _
      · simp only [Query.set_subarray, hco] at hr
        by_cases hst : st.isOk = true
        · rw [if_pos hst, if_pos ht] at hr
          cases hr
          simp_all
        · rw [if_neg hst] at hr
          cases hr
          simp_all
      · simp [Query.set_subarray, hco] at hr
  · intro ht
    refine ⟨?_, ?_, ?_, ?_, ?_, ?_, ?_⟩
    · intro e he
      simp only [Query.init] at he
      split_ifs at he <;> simp_all [Event.isWriterOp]
    · intro e he
      simp only [Query.process] at he
      split_ifs at he <;> simp_all [Event.isWriterOp]
      rcases he with he | he <;> simp_all [Event.isWriterOp]
    · intro e he
      simp only [Query.cancel] at he
      simp_all
    · intro r hr e he
      rcases hco : check_subarray_bounds ndebug q.schema sub with st | _
      · simp only [Query.set_subarray, hco] at hr
        by_cases hst : st.isOk = true
        · rw [ht] at hr
          rw [if_pos hst, if_neg (by decide :
            ¬ (QueryType.READ = QueryType.WRITE))] at hr
          cases hr
          simp_all [Event.isWriterOp]
        · rw [if_neg hst] at hr
          cases hr
          simp_all
      · simp [Query.set_subarray, hco] at hr
    · simp only [Query.init]
      split_ifs <;> simp_all
    · simp only [Query.process]
      split_ifs <;> simp_all
    · intro hs
      simp only [Query.finalize]
      split_ifs <;> simp_all

/-- Witness for C7's amended statement: even for a READ query (here in
INCOMPLETE status) `finalize` produces exactly one Writer invocation. -/
theorem delegation_matches_type_witness :
    (Query.finalize exEnv
        (exQuery QueryType.READ QueryStatus.INCOMPLETE)).2.2 =
      [Event.writerFinalize] :=
  ((delegation_matches_type exEnv true none
      (exQuery QueryType.READ QueryStatus.INCOMPLETE)).2 rfl).2.2.2.2.2.2
    (by decide)
